import Mathlib

/-!
Verification development for the Synapse backend's job-orchestration core.

The Python sources are shallowly embedded as executable Lean definitions:
JSON values and the `json.dumps` / `json.loads` pair, the job store
(`RealDatabaseService`), the Redis-backed volatile cache / history cache
(`RealRedisService`), the message-posting endpoint's task dispatches
(`post_message`), the pub/sub listener (`redis_pubsub_listener`) with the
connection registry (`ConnectionManager`), the websocket endpoint, and the
MCP tool-execution loop (`MCPToolsService._process_llm_response`).
-/

namespace Synapse

/-! ## JSON values

Model of Python's JSON-serializable values as produced/consumed by
`json.dumps` / `json.loads`.  Numbers are modelled as integers (the
repository's payloads are strings, booleans, integers, arrays and objects).
Arrays and objects carry their own list types so that all functions below
are structural recursions that the kernel can evaluate.
-/

mutual

inductive Json where
  | null : Json
  | bool (b : Bool) : Json
  | num (n : Int) : Json
  | str (s : String) : Json
  | arr (elems : JsonArr) : Json
  | obj (members : JsonObj) : Json

inductive JsonArr where
  | nil : JsonArr
  | cons (hd : Json) (tl : JsonArr) : JsonArr

inductive JsonObj where
  | nil : JsonObj
  | cons (key : String) (val : Json) (tl : JsonObj) : JsonObj

end

mutual

/-- Boolean equality on JSON values (Python `==` on parsed JSON data). -/
def Json.beq : Json → Json → Bool
  | .null, .null => true
  | .bool a, .bool b => a == b
  | .num a, .num b => a == b
  | .str a, .str b => a == b
  | .arr a, .arr b => JsonArr.beq a b
  | .obj a, .obj b => JsonObj.beq a b
  | _, _ => false

/-- Boolean equality on JSON arrays. -/
def JsonArr.beq : JsonArr → JsonArr → Bool
  | .nil, .nil => true
  | .cons a as, .cons b bs => Json.beq a b && JsonArr.beq as bs
  | _, _ => false

/-- Boolean equality on JSON objects (keys and values in order). -/
def JsonObj.beq : JsonObj → JsonObj → Bool
  | .nil, .nil => true
  | .cons ka va as, .cons kb vb bs => ka == kb && Json.beq va vb && JsonObj.beq as bs
  | _, _ => false

end

/-- Looks a key up in a JSON object; the LAST binding wins, matching the
semantics of Python's `json.loads` building a `dict` (later duplicate keys
overwrite earlier ones). -/
def JsonObj.get : JsonObj → String → Option Json
  | .nil, _ => none
  | .cons k v tl, key => match JsonObj.get tl key with
    | some r => some r
    | none => if k == key then some v else none

/-- Membership test for a key in a JSON object (Python `key in dict`). -/
def JsonObj.hasKey (o : JsonObj) (key : String) : Bool :=
  (JsonObj.get o key).isSome

/-- Python truthiness of a JSON value (`if x:`): `None`, `False`, `0`, the
empty string, the empty list and the empty dict are falsy. -/
def Json.truthy : Json → Bool
  | .null => false
  | .bool b => b
  | .num n => n != 0
  | .str s => s != ""
  | .arr .nil => false
  | .arr _ => true
  | .obj .nil => false
  | .obj _ => true

/-- Decimal digits of a natural number, most significant first; fuel-based
so that the kernel can evaluate it (the fuel is an upper bound on the number
of digits). -/
def natDigitsAux : Nat → Nat → List Char
  | 0, _ => []
  | Nat.succ fuel, n =>
      if n < 10 then [Char.ofNat (48 + n)]
      else natDigitsAux fuel (n / 10) ++ [Char.ofNat (48 + n % 10)]

/-- Decimal digits of a natural number, most significant first,
as a character list (`"0"` for zero). -/
def natDigits (n : Nat) : List Char :=
  natDigitsAux (n + 1) n

/-- Decimal rendering of an integer, as Python prints it. -/
def intChars (n : Int) : List Char :=
  if n < 0 then '-' :: natDigits n.natAbs else natDigits n.natAbs

/-- Escapes one character the way `json.dumps` does inside a string literal
(quote, backslash, and the common control characters). -/
def escapeChar (c : Char) : List Char :=
  if c = '"' then ['\\', '"']
  else if c = '\\' then ['\\', '\\']
  else if c = '\n' then ['\\', 'n']
  else if c = '\t' then ['\\', 't']
  else if c = '\r' then ['\\', 'r']
  else [c]

/-- Renders a JSON string literal with surrounding quotes. -/
def quoteString (s : String) : List Char :=
  '"' :: (s.data.flatMap escapeChar) ++ ['"']

mutual

/-- Model of Python `json.dumps` with the default separators
(`", "` between items, `": "` after keys), producing a character list. -/
def Json.dumpChars : Json → List Char
  | .null => "null".data
  | .bool true => "true".data
  | .bool false => "false".data
  | .num n => intChars n
  | .str s => quoteString s
  | .arr elems => '[' :: JsonArr.dumpChars elems ++ [']']
  | .obj members => '{' :: JsonObj.dumpChars members ++ ['}']

/-- Renders the comma-separated items of a JSON array. -/
def JsonArr.dumpChars : JsonArr → List Char
  | .nil => []
  | .cons hd .nil => Json.dumpChars hd
  | .cons hd tl => Json.dumpChars hd ++ ',' :: ' ' :: JsonArr.dumpChars tl

/-- Renders the comma-separated `"key": value` members of a JSON object. -/
def JsonObj.dumpChars : JsonObj → List Char
  | .nil => []
  | .cons k v .nil => quoteString k ++ ':' :: ' ' :: Json.dumpChars v
  | .cons k v tl =>
      quoteString k ++ ':' :: ' ' :: Json.dumpChars v ++ ',' :: ' ' :: JsonObj.dumpChars tl

end

/-- Model of Python `json.dumps` producing a string. -/
def Json.dumps (j : Json) : String :=
  String.mk (Json.dumpChars j)

/-! ## JSON parsing (`json.loads`)

Recursive-descent parser over a character list, with a fuel argument so
that every function is a structural recursion the kernel can evaluate.
`json.loads` requires the whole input (up to whitespace) to be one JSON
document. -/

/-- JSON whitespace characters. -/
def isWsChar (c : Char) : Bool :=
  c = ' ' || c = '\n' || c = '\t' || c = '\r'

/-- Drops leading JSON whitespace. -/
def skipWs : List Char → List Char
  | [] => []
  | c :: cs => if isWsChar c then skipWs cs else c :: cs

/-- Tests for an ASCII decimal digit. -/
def isDigitCh (c : Char) : Bool :=
  '0' ≤ c && c ≤ '9'

/-- Numeric value of an ASCII decimal digit. -/
def digitVal (c : Char) : Nat :=
  c.toNat - 48

/-- Consumes a greedy run of decimal digits, accumulating their value. -/
def parseDigitsAux : List Char → Nat → Nat × List Char
  | [], acc => (acc, [])
  | c :: cs, acc =>
      if isDigitCh c then parseDigitsAux cs (acc * 10 + digitVal c) else (acc, c :: cs)

/-- Parses one or more decimal digits into a natural number. -/
def parseDigits : List Char → Option (Nat × List Char)
  | [] => none
  | c :: cs => if isDigitCh c then some (parseDigitsAux cs (digitVal c)) else none

/-- Numeric value of a hexadecimal digit, if it is one. -/
def hexVal (c : Char) : Option Nat :=
  if '0' ≤ c && c ≤ '9' then some (c.toNat - 48)
  else if 'a' ≤ c && c ≤ 'f' then some (c.toNat - 87)
  else if 'A' ≤ c && c ≤ 'F' then some (c.toNat - 55)
  else none

/-- Parses the body of a JSON string literal (after the opening quote),
handling the standard escapes, up to and including the closing quote. -/
def parseStringBody : List Char → Option (List Char × List Char)
  | [] => none
  | c :: cs =>
      if c = '"' then some ([], cs)
      else if c = '\\' then
        match cs with
        | [] => none
        | e :: cs' =>
            if e = '"' then (parseStringBody cs').map (fun p => ('"' :: p.1, p.2))
            else if e = '\\' then (parseStringBody cs').map (fun p => ('\\' :: p.1, p.2))
            else if e = '/' then (parseStringBody cs').map (fun p => ('/' :: p.1, p.2))
            else if e = 'n' then (parseStringBody cs').map (fun p => ('\n' :: p.1, p.2))
            else if e = 't' then (parseStringBody cs').map (fun p => ('\t' :: p.1, p.2))
            else if e = 'r' then (parseStringBody cs').map (fun p => ('\r' :: p.1, p.2))
            else if e = 'b' then (parseStringBody cs').map (fun p => ('\x08' :: p.1, p.2))
            else if e = 'f' then (parseStringBody cs').map (fun p => ('\x0c' :: p.1, p.2))
            else if e = 'u' then
              match cs' with
              | h1 :: h2 :: h3 :: h4 :: cs'' =>
                  match hexVal h1, hexVal h2, hexVal h3, hexVal h4 with
                  | some a, some b, some c3, some d =>
                      (parseStringBody cs'').map
                        (fun p => (Char.ofNat (((a * 16 + b) * 16 + c3) * 16 + d) :: p.1, p.2))
                  | _, _, _, _ => none
              | _ => none
            else none
      else (parseStringBody cs).map (fun p => (c :: p.1, p.2))

mutual

/-- Parses one JSON value (after skipping leading whitespace). -/
def parseValue : Nat → List Char → Option (Json × List Char)
  | 0, _ => none
  | Nat.succ fuel, cs =>
      match skipWs cs with
      | 'n' :: 'u' :: 'l' :: 'l' :: rest => some (.null, rest)
      | 't' :: 'r' :: 'u' :: 'e' :: rest => some (.bool true, rest)
      | 'f' :: 'a' :: 'l' :: 's' :: 'e' :: rest => some (.bool false, rest)
      | '"' :: rest => (parseStringBody rest).map (fun p => (.str (String.mk p.1), p.2))
      | '-' :: rest => (parseDigits rest).map (fun p => (.num (-(p.1 : Int)), p.2))
      | '[' :: rest =>
          (match skipWs rest with
           | ']' :: rest' => some (.arr .nil, rest')
           | _ => (parseArrItems fuel rest).map (fun p => (.arr p.1, p.2)))
      | '{' :: rest =>
          (match skipWs rest with
           | '}' :: rest' => some (.obj .nil, rest')
           | _ => (parseObjItems fuel rest).map (fun p => (.obj p.1, p.2)))
      | rest => (parseDigits rest).map (fun p => (.num (p.1 : Int), p.2))

/-- Parses the non-empty item list of a JSON array, up to and including the
closing bracket. -/
def parseArrItems : Nat → List Char → Option (JsonArr × List Char)
  | 0, _ => none
  | Nat.succ fuel, cs =>
      match parseValue fuel cs with
      | none => none
      | some (v, rest) =>
          match skipWs rest with
          | ',' :: rest' =>
              (parseArrItems fuel rest').map (fun p => (.cons v p.1, p.2))
          | ']' :: rest' => some (.cons v .nil, rest')
          | _ => none

/-- Parses the non-empty member list of a JSON object, up to and including
the closing brace. -/
def parseObjItems : Nat → List Char → Option (JsonObj × List Char)
  | 0, _ => none
  | Nat.succ fuel, cs =>
      match skipWs cs with
      | '"' :: rest =>
          (match parseStringBody rest with
           | none => none
           | some (key, rest1) =>
               match skipWs rest1 with
               | ':' :: rest2 =>
                   (match parseValue fuel rest2 with
                    | none => none
                    | some (v, rest3) =>
                        match skipWs rest3 with
                        | ',' :: rest4 =>
                            (parseObjItems fuel rest4).map
                              (fun p => (.cons (String.mk key) v p.1, p.2))
                        | '}' :: rest4 => some (.cons (String.mk key) v .nil, rest4)
                        | _ => none)
               | _ => none)
      | _ => none

end

/-- Model of Python `json.loads` on a character list: parses exactly one
JSON document, allowing surrounding whitespace, and fails otherwise. -/
def loadsChars (cs : List Char) : Option Json :=
  match parseValue (2 * cs.length + 4) cs with
  | some (j, rest) => if skipWs rest = [] then some j else none
  | none => none

/-- Model of Python `json.loads` on a string. -/
def Json.loads (s : String) : Option Json :=
  loadsChars s.data

/-! ## Python `str()` rendering

Used where the source interpolates parsed JSON values into f-strings
(`str(result)` in the job store, `f"... {tool_name}"` in the tool loop). -/

/-- Escapes one character inside a Python single-quoted `repr` literal. -/
def pyReprEscape (c : Char) : List Char :=
  if c = '\'' then ['\\', '\'']
  else if c = '\\' then ['\\', '\\']
  else if c = '\n' then ['\\', 'n']
  else if c = '\t' then ['\\', 't']
  else if c = '\r' then ['\\', 'r']
  else [c]

mutual

/-- Model of Python `repr` on parsed-JSON data (lists and dicts print with
single-quoted strings; `None` / `True` / `False` capitalised). -/
def Json.pyRepr : Json → List Char
  | .null => ['N', 'o', 'n', 'e']
  | .bool true => ['T', 'r', 'u', 'e']
  | .bool false => ['F', 'a', 'l', 's', 'e']
  | .num n => intChars n
  | .str s => '\'' :: (s.data.flatMap pyReprEscape) ++ ['\'']
  | .arr elems => '[' :: JsonArr.pyRepr elems ++ [']']
  | .obj members => '{' :: JsonObj.pyRepr members ++ ['}']

/-- Renders the comma-separated `repr` items of a Python list. -/
def JsonArr.pyRepr : JsonArr → List Char
  | .nil => []
  | .cons hd .nil => Json.pyRepr hd
  | .cons hd tl => Json.pyRepr hd ++ ',' :: ' ' :: JsonArr.pyRepr tl

/-- Renders the comma-separated `repr` members of a Python dict. -/
def JsonObj.pyRepr : JsonObj → List Char
  | .nil => []
  | .cons k v .nil =>
      '\'' :: (k.data.flatMap pyReprEscape) ++ '\'' :: ':' :: ' ' :: Json.pyRepr v
  | .cons k v tl =>
      '\'' :: (k.data.flatMap pyReprEscape) ++ '\'' :: ':' :: ' ' :: Json.pyRepr v
        ++ ',' :: ' ' :: JsonObj.pyRepr tl

end

/-- Model of Python `str()` on parsed-JSON data: strings render verbatim,
everything else as its `repr`. -/
def Json.pyStr : Json → String
  | .str s => s
  | j => String.mk (Json.pyRepr j)

/-! ## Job store (`src/services/real/db_service.py`, `RealDatabaseService`)

One `ProcessingJob` row, embedded with `Nat` timestamps (`func.now()` of a
call becomes the call's time argument; DB time is monotone across calls).
The `status` column stores `status.value` and is read back through
`JobStateEnum(...)`; since that round trip is the identity on the enum, the
field is modelled as the enum itself. -/

/-- States of a processing job (`JobStateEnum` in `src/schemas/job.py`). -/
inductive JobStateEnum where
  | PENDING
  | PROCESSING
  | AWAITING_CLARIFICATION
  | COMPLETED
  | FAILED
deriving DecidableEq, Repr

/-- Terminal-state test, as written in `update_job_status`:
`status in [JobStateEnum.COMPLETED, JobStateEnum.FAILED]`. -/
def JobStateEnum.isTerminal (s : JobStateEnum) : Prop :=
  s = .COMPLETED ∨ s = .FAILED

instance (s : JobStateEnum) : Decidable s.isTerminal := by
  unfold JobStateEnum.isTerminal; infer_instance

/-- Payload of `JobCreate` (`src/schemas/job.py`); UUIDs are opaque strings
here. -/
structure JobCreate where
  user_id : String
  conversation_id : String
  input_type : String
  input_data : Json

/-- Row of the `processing_jobs` table (`ProcessingJob` in
`src/db/models.py`), restricted to the columns the service touches. -/
structure ProcessingJob where
  uuid : String
  user_id : String
  job_type : String
  status : JobStateEnum
  input_data : Option Json
  result_data : Option Json
  error_message : Option String
  created_at : Nat
  started_at : Option Nat
  completed_at : Option Nat

/-- Response schema `JobStatus` (`src/schemas/job.py`). -/
structure JobStatus where
  id : String
  status : JobStateEnum
  created_at : Nat
  updated_at : Nat
  history : List String
  result : Option Json

/-- Python `job.completed_at or job.started_at or job.created_at`
(a datetime is always truthy, so `or` picks the first non-`None`). -/
def lastUpdateTime (job : ProcessingJob) : Nat :=
  match job.completed_at with
  | some t => t
  | none => match job.started_at with
    | some t => t
    | none => job.created_at

/-- Model of `RealDatabaseService.create_job`: inserts a fresh
`ProcessingJob` row with status `PENDING`; `started_at`, `completed_at`,
`result_data` and `error_message` take the table's `NULL` defaults. -/
def create_job (job_id : String) (job_data : JobCreate) (now : Nat) :
    ProcessingJob × JobStatus :=
  let new_job : ProcessingJob :=
    { uuid := job_id
      user_id := job_data.user_id
      job_type := job_data.input_type
      status := .PENDING
      input_data := some job_data.input_data
      result_data := none
      error_message := none
      created_at := now
      started_at := none
      completed_at := none }
  (new_job,
    { id := new_job.uuid
      status := new_job.status
      created_at := new_job.created_at
      updated_at := new_job.created_at
      history := ["Job created"]
      result := none })

/-- Model of `RealDatabaseService.update_job_status`: raises `ValueError`
when the job id is unknown; otherwise sets the status, stamps `started_at`
on entering `PROCESSING` only when it is still `NULL`, stamps
`completed_at` on entering `COMPLETED`/`FAILED`, and, when a `result`
argument was passed, stores it in `error_message` (via `str(result)`) for
`FAILED` or in `result_data` otherwise, clearing the opposite column. -/
def update_job_status (job : Option ProcessingJob) (status : JobStateEnum)
    (result : Option Json) (now : Nat) : Except String (ProcessingJob × JobStatus) :=
  match job with
  | none => .error "Job not found in processing_jobs table."
  | some job =>
    let job1 := { job with status := status }
    let job2 :=
      if status = .PROCESSING ∧ job1.started_at = none then
        { job1 with started_at := some now }
      else job1
    let job3 :=
      if status.isTerminal then { job2 with completed_at := some now } else job2
    let job4 :=
      match result with
      | none => job3
      | some r =>
          if status = .FAILED then
            { job3 with error_message := some (Json.pyStr r), result_data := none }
          else
            { job3 with result_data := some r, error_message := none }
    .ok (job4,
      { id := job4.uuid
        status := job4.status
        created_at := job4.created_at
        updated_at := lastUpdateTime job4
        history := ["Job status updated"]
        result := job4.result_data })

/-- One worker call to `update_job_status`: the requested status, the
optional `result` argument, and the call's `func.now()` timestamp. -/
structure JobUpdate where
  status : JobStateEnum
  result : Option Json
  time : Nat

/-- Applies one `update_job_status` call to an existing row (on an existing
row the call never raises, so this extracts the updated row). -/
def applyUpdate (job : ProcessingJob) (u : JobUpdate) : ProcessingJob :=
  match update_job_status (some job) u.status u.result u.time with
  | .ok (j, _) => j
  | .error _ => job

/-- Applies a sequence of `update_job_status` calls in order. -/
def applyUpdates (job : ProcessingJob) (us : List JobUpdate) : ProcessingJob :=
  us.foldl applyUpdate job

/-- Time of the first update in a sequence that requests `PROCESSING`. -/
def firstProcessingTime : List JobUpdate → Option Nat
  | [] => none
  | u :: us => if u.status = .PROCESSING then some u.time else firstProcessingTime us

/-- Sample job payload used by concrete witnesses. -/
def sampleJobCreate : JobCreate :=
  { user_id := "u1", conversation_id := "c1", input_type := "text",
    input_data := .str "hello" }

/-- Sample update sequence (a valid run to `COMPLETED`) used by the C2
witness. -/
def c2SampleUpdates : List JobUpdate :=
  [⟨.PROCESSING, none, 1⟩, ⟨.COMPLETED, some (.str "done"), 2⟩]

/-- Job obtained by updating to `COMPLETED` and then back to `PENDING`,
used by the C2 counterexample. -/
def c2CounterJob : ProcessingJob :=
  applyUpdates (create_job "j1" sampleJobCreate 0).1
    [⟨.COMPLETED, none, 1⟩, ⟨.PENDING, none, 2⟩]

/-- Freshly created job row used by the C3 witness. -/
def c3SampleJob : ProcessingJob := (create_job "j3" sampleJobCreate 0).1

/-! ## Redis service (`src/services/real/redis_service.py`, `RealRedisService`)

The volatile job-state hash (`job:{id}:state`) is an insertion-ordered
field map, as a Redis hash behaves; the per-conversation history list
(`history:{id}`) is a Redis list with its head at index 0 (`LPUSH` prepends,
so the store is newest-first). -/

/-- Redis list slice for `LRANGE`/`LTRIM` semantics: inclusive `start..stop`
with negative indices counted from the end, clamped to the list. -/
def listSlice (xs : List String) (start stop : Int) : List String :=
  let n : Int := xs.length
  let s : Int := if start < 0 then max (n + start) 0 else start
  let e : Int := min (if stop < 0 then n + stop else stop) (n - 1)
  if s > e then [] else (xs.drop s.toNat).take (e - s + 1).toNat

/-- Model of `HSET key field value` for one field: overwrites the field in
place if present, appends it otherwise. -/
def hsetField (store : List (String × String)) (k v : String) : List (String × String) :=
  if store.any (fun kv => kv.1 == k) then
    store.map (fun kv => if kv.1 == k then (kv.1, v) else kv)
  else store ++ [(k, v)]

/-- Model of `RealRedisService.set_job_state`: stringifies every value of
`state_data` with `json.dumps` and stores the result with
`HSET key mapping=...` (one `HSET` per field, insertion order). -/
def set_job_state (store : List (String × String)) (state_data : List (String × Json)) :
    List (String × String) :=
  state_data.foldl (fun st kv => hsetField st kv.1 (Json.dumps kv.2)) store

/-- Deserializes every field of a hash with `json.loads` (the dict
comprehension in `get_job_state`); the first parse failure raises, giving
`none`. -/
def loadFields : List (String × String) → Option (List (String × Json))
  | [] => some []
  | kv :: tl =>
    match Json.loads kv.2 with
    | none => none
    | some j => (loadFields tl).map (fun l => (kv.1, j) :: l)

/-- Model of `RealRedisService.get_job_state`: `HGETALL`, then `None` when
the hash is empty (`if data:` fails), otherwise `json.loads` on every value
(an unparsable value raises, modelled as `.error`). -/
def get_job_state (store : List (String × String)) :
    Except Unit (Option (List (String × Json))) :=
  match store with
  | [] => .ok none
  | _ =>
    match loadFields store with
    | some l => .ok (some l)
    | none => .error ()

/-- Model of `RealRedisService.add_message_to_history`: in one transactional
pipeline, `LPUSH` the dumped message and `LTRIM key 0 window_size-1`. -/
def add_message_to_history (store : List String) (message : Json) (window_size : Nat) :
    List String :=
  listSlice (Json.dumps message :: store) 0 ((window_size : Int) - 1)

/-- Model of `RealRedisService.get_recent_history`: `LRANGE key 0 limit-1`,
`json.loads` each entry skipping corrupted ones, then reverse into
chronological (oldest-first) order. -/
def get_recent_history (store : List String) (limit : Nat) : List Json :=
  ((listSlice store 0 ((limit : Int) - 1)).filterMap Json.loads).reverse

/-- Appends a whole message sequence through `add_message_to_history`. -/
def appendHistory (ms : List Json) (window_size : Nat) : List String :=
  ms.foldl (fun st m => add_message_to_history st m window_size) []

/-- Sample history messages used by the C5 witness. -/
def c5SampleMessages : List Json :=
  [.obj (.cons "role" (.str "user") (.cons "content" (.str "m1") .nil)),
   .obj (.cons "role" (.str "assistant") (.cons "content" (.str "m2") .nil)),
   .obj (.cons "role" (.str "user") (.cons "content" (.str "m3") .nil))]


/-- Sample volatile job state used by the C9 witness. -/
def c9SampleState : List (String × Json) :=
  [("progress", .num 3), ("note", .str "ok"), ("flags", .arr (.cons (.bool true) .nil))]

/-! ## Message-posting endpoint (`src/api/endpoints/conversation.py`,
`post_message`)

Modelled as the sequence of `celery_app.send_task` dispatches the handler
performs; task names and queues are kept, task argument payloads are not
modelled (no claim depends on them).  The `tools` and `both` chat modes may
return before the dispatch section; their MCP/database/websocket side
effects are outside this model. -/

/-- One `celery_app.send_task` dispatch: task name and target queue. -/
structure CeleryTask where
  name : String
  queue : String
deriving DecidableEq

/-- Fixed summarization threshold (`SUMMARIZATION_THRESHOLD = 10`). -/
def SUMMARIZATION_THRESHOLD : Nat := 10

/-- Python `tools_response.startswith("❌")`. -/
def startsWithCross (s : String) : Bool :=
  match s.data with
  | c :: _ => c = '❌'
  | [] => false

/-- Outcome of `mcp_tools_service.process_tools_query` in `both` mode:
`.ok` with the response string, or `.error` when it raised. -/
def toolsShortCircuit (outcome : Except Unit String) : Bool :=
  match outcome with
  | .ok resp => !(startsWithCross resp)
  | .error _ => false

/-- Dispatches of the default personalization path (also the fallback path
of `both` mode): title generation on the first message, the routing job,
and summarization on every `SUMMARIZATION_THRESHOLD`-th message, where the
message count is taken BEFORE the new message is persisted. -/
def defaultPathTasks (count_before : Nat) : List CeleryTask :=
  (if count_before = 0 then [⟨"generate_title_task", "cpu_heavy"⟩] else [])
    ++ [⟨"route_input_task", "cpu_light"⟩]
    ++ (if (count_before + 1) % SUMMARIZATION_THRESHOLD = 0 then
          [⟨"summarize_conversation_task", "cpu_heavy"⟩] else [])

/-- Model of `post_message`'s task dispatches: `tools` mode returns early in
both its success and exception paths (no dispatches); `both` mode returns
early when the tools call succeeds with a response not starting with the
failure marker; everything else reaches the personalization path. -/
def post_message_tasks (chat_mode : String) (count_before : Nat)
    (toolsOutcome : Except Unit String) : List CeleryTask :=
  if chat_mode = "tools" then []
  else if chat_mode = "both" ∧ toolsShortCircuit toolsOutcome = true then []
  else defaultPathTasks count_before

/-- Number of dispatched tasks with a given name. -/
def countTask (ts : List CeleryTask) (name : String) : Nat :=
  (ts.filter (fun t => t.name == name)).length

/-! ## Connection registry and pub/sub relay (`src/websockets/manager.py`,
`ConnectionManager`; `src/app/main.py`, `redis_pubsub_listener`)

Websocket connections are opaque handles (`Nat`).  The registry is the
`active_connections` dict: client id → connection, one entry per id. -/

/-- Connection registry (`ConnectionManager.active_connections`). -/
structure ConnectionManager where
  active_connections : List (String × Nat)

/-- Dict lookup `self.active_connections[client_id]`
(with `client_id in self.active_connections` as `isSome`). -/
def lookupConn (m : ConnectionManager) (client_id : String) : Option Nat :=
  (m.active_connections.find? (fun kv => kv.1 == client_id)).map Prod.snd

/-- Model of `ConnectionManager.connect`: accepts the socket and maps
`client_id` to it, replacing any previous connection for the same id. -/
def ConnectionManager.connect (m : ConnectionManager) (client_id : String) (ws : Nat) :
    ConnectionManager :=
  if m.active_connections.any (fun kv => kv.1 == client_id) then
    ⟨m.active_connections.map (fun kv => if kv.1 == client_id then (kv.1, ws) else kv)⟩
  else ⟨m.active_connections ++ [(client_id, ws)]⟩

/-- Outcome of `ConnectionManager.send_personal_message`. -/
inductive SendOutcome where
  | sent (ws : Nat) (message : Json)
  | noConnection

/-- Model of `ConnectionManager.send_personal_message`: sends the message
over the registered connection, or prints a diagnostic and does nothing
when the client id is unknown. -/
def send_personal_message (m : ConnectionManager) (message : Json) (client_id : String) :
    SendOutcome :=
  match lookupConn m client_id with
  | some ws => .sent ws message
  | none => .noConnection

/-- Observable outcome of one iteration of `redis_pubsub_listener` on a
received `job-updates` payload. -/
inductive ListenerOutcome where
  | forwarded (ws : Nat) (payload : Json)
  | dropNoConnection (payload : Json)
  | dropNoClientId
  | errorLogged

/-- Model of one loop iteration of `redis_pubsub_listener` on raw payload
text: `json.loads` it (an exception is caught and logged, the loop
continues), read `data.get("user_id")` as the routing key, and when that is
truthy hand the parsed payload to `send_personal_message`; a missing/falsy
`user_id` is logged and dropped.  A non-dict payload raises
`AttributeError` on `.get`, which the loop's `except` also catches. -/
def redis_pubsub_listener_step (m : ConnectionManager) (raw : String) : ListenerOutcome :=
  match Json.loads raw with
  | none => .errorLogged
  | some data =>
    match data with
    | .obj o =>
      match JsonObj.get o "user_id" with
      | some cid =>
        if cid.truthy then
          match cid with
          | .str s =>
            (match lookupConn m s with
             | some ws => .forwarded ws data
             | none => .dropNoConnection data)
          | _ => .dropNoConnection data
        else .dropNoClientId
      | none => .dropNoClientId
    | _ => .errorLogged

/-! ## Websocket endpoint (`src/api/endpoints/websockets.py`) -/

/-- Authenticated user as returned to the endpoint (`UserPublic`); `uuid`
holds the canonical `str(user.uuid)`. -/
structure UserPublic where
  uuid : String
  email : String
  is_active : Bool

/-- Model of `get_current_user_from_token`.  `decode` abstracts
`jwt.decode` (`.error` = `JWTError`, `.ok` carries the optional `sub`
claim); `lookupUser` abstracts `uuid.UUID(sub)` plus
`user_service.get_user_by_uuid` (`none` when either fails — every
exception is caught and returns `None`).  A found but inactive user also
yields `None`. -/
def get_current_user_from_token (decode : String → Except Unit (Option String))
    (lookupUser : String → Option UserPublic) (token : Option String) :
    Option UserPublic :=
  match token with
  | none => none
  | some tok =>
    match decode tok with
    | .error _ => none
    | .ok none => none
    | .ok (some sub) =>
      match lookupUser sub with
      | none => none
      | some user => if user.is_active then some user else none

/-- Result of a websocket connection attempt. -/
inductive WsOutcome where
  | rejectedPolicyViolation
  | accepted
deriving DecidableEq

/-- Model of `websocket_endpoint` up to registration: when the dependency
produced no user, or the authenticated user's string UUID differs from the
path `client_id`, the socket is closed with code 1008 (policy violation)
and nothing is registered; otherwise `connection_manager.connect` registers
the socket under `client_id`. -/
def websocket_endpoint (client_id : String) (user : Option UserPublic)
    (m : ConnectionManager) (ws : Nat) : WsOutcome × ConnectionManager :=
  match user with
  | none => (.rejectedPolicyViolation, m)
  | some u =>
    if u.uuid ≠ client_id then (.rejectedPolicyViolation, m)
    else (.accepted, m.connect client_id ws)

/-- Registry with one registered connection, used by the C6 witness. -/
def c6Registry : ConnectionManager := ⟨[("u42", 7)]⟩

/-- Parsed payload of the C6 witness. -/
def c6Payload : JsonObj :=
  .cons "job_id" (.str "j1") (.cons "user_id" (.str "u42") .nil)

/-- Token decoder stub used by the C10 witness. -/
def c10Decode : String → Except Unit (Option String) := fun _ => .ok (some "u1")

/-- User lookup stub used by the C10 witness. -/
def c10Lookup : String → Option UserPublic :=
  fun s => if s = "u1" then some ⟨"u1", "user@example.com", true⟩ else none

/-! ## Distributed per-job lock (`src/services/real/redis_service.py`,
`acquire_job_lock` / `RedisLockWrapper`)

The code only wraps `redis.asyncio.lock.Lock` (key `job:{id}:lock`, hold
timeout, `blocking_timeout=5`); the mutual-exclusion mechanism itself lives
in the redis client library and server, outside `src/`.  Its semantics are
therefore modelled from the spec (§4.2). -/

/-- Parameters of the lock built by `RealRedisService.acquire_job_lock`:
key `job:{job_id}:lock`, the hold `timeout` (default 60), and the bounded
acquisition wait `blocking_timeout=5`. -/
structure JobLockParams where
  lock_key : String
  timeout : Nat
  blocking_timeout : Nat

/-- Model of `RealRedisService.acquire_job_lock`'s lock construction. -/
def acquire_job_lock (job_id : String) (timeout : Nat) : JobLockParams :=
  { lock_key := "job:" ++ job_id ++ ":lock", timeout := timeout, blocking_timeout := 5 }

/-- Modelled from the spec: the state of one job's lock as kept by the
(single, serialized) lock store — the holder's token and the absolute
expiry of its hold, or nothing when free.  The redis `Lock` implementation
this stands for is not part of `src/`. -/
structure LockState where
  holder : Option (String × Nat)

/-- Modelled from the spec: one atomic acquisition attempt at time `now`
with hold timeout `timeout` — it succeeds iff the lock is free or the
previous hold has expired (auto-release after the hold timeout, even if
the holder crashed), granting a hold until `now + timeout`. -/
def tryAcquire (s : LockState) (tok : String) (now timeout : Nat) : LockState × Bool :=
  match s.holder with
  | none => (⟨some (tok, now + timeout)⟩, true)
  | some (_, exp) =>
      if exp ≤ now then (⟨some (tok, now + timeout)⟩, true) else (s, false)

/-- Modelled from the spec: release frees the lock when the caller's token
holds it and is an idempotent no-op otherwise. -/
def releaseLock (s : LockState) (tok : String) : LockState :=
  match s.holder with
  | some (t, _) => if t == tok then ⟨none⟩ else s
  | none => s

/-! ## Tool-execution loop (`src/services/mcp_tools_service.py`,
`MCPToolsService._process_llm_response`)

The provider response is scanned with
`re.findall(r'\x7b[^\x7b\x7d]*(?:\x7b[^\x7b\x7d]*\x7d[^\x7b\x7d]*)*\x7d', ...)`
after removing newlines; every balanced (one-nesting-level) brace group
that parses as JSON with both a `tool` and an `arguments` key becomes a
tool call.  Tool servers and the summarization call are abstracted by
their observable results. -/

/-- Splits a character list at the first brace (either kind). -/
def spanNonBrace : List Char → List Char × List Char
  | [] => ([], [])
  | c :: cs =>
      if c = '{' ∨ c = '}' then ([], c :: cs)
      else
        let p := spanNonBrace cs
        (c :: p.1, p.2)

/-- Matches the body of one regex brace group after its opening brace:
a run of non-braces, then any number of `\x7b...\x7d` one-level nestings
separated by non-brace runs, then the closing brace.  Returns the matched
body (closing brace included) and the rest; `none` when the pattern cannot
match here, exactly as the regex (backtracking cannot rescue a failed
nesting). -/
def matchBody : Nat → List Char → Option (List Char × List Char)
  | 0, _ => none
  | Nat.succ fuel, cs =>
    let p := spanNonBrace cs
    match p.2 with
    | '}' :: rest => some (p.1 ++ ['}'], rest)
    | '{' :: rest =>
        let q := spanNonBrace rest
        (match q.2 with
         | '}' :: rest2 =>
             (matchBody fuel rest2).map (fun r => (p.1 ++ '{' :: q.1 ++ '}' :: r.1, r.2))
         | _ => none)
    | _ => none

/-- Model of `re.findall` with the tool-call pattern: scans left to right,
emitting each non-overlapping match and advancing one character past a
position where no match starts. -/
def findJsonStrings : Nat → List Char → List (List Char)
  | 0, _ => []
  | Nat.succ _, [] => []
  | Nat.succ fuel, c :: cs =>
      if c = '{' then
        match matchBody (cs.length + 1) cs with
        | some (body, rest) => ('{' :: body) :: findJsonStrings fuel rest
        | none => findJsonStrings fuel cs
      else findJsonStrings fuel cs

/-- Brace-group extraction applied to the newline-stripped response
(`llm_response.replace('\n', '')`). -/
def extractJsonStrings (s : String) : List String :=
  let cleaned := s.data.filter (fun c => c ≠ '\n')
  (findJsonStrings (cleaned.length + 1) cleaned).map String.mk

/-- Reads a parsed JSON value as a tool call when it is a dict with both a
`"tool"` and an `"arguments"` key, giving the `(tool, arguments)` values. -/
def toolCallOfJson (j : Json) : Option (Json × Json) :=
  match j with
  | .obj o =>
      match JsonObj.get o "tool", JsonObj.get o "arguments" with
      | some t, some a => some (t, a)
      | _, _ => none
  | _ => none

/-- Extraction pipeline for the regex path: every brace group that parses
as JSON and carries both keys (parse failures are logged and skipped). -/
def extractToolCalls (llm_response : String) : List (Json × Json) :=
  (extractJsonStrings llm_response).filterMap
    (fun js => (Json.loads js).bind toolCallOfJson)

/-- Python `tool.name == tool_name` where `tool_name` came from parsed
JSON: equal only when the parsed value is that exact string. -/
def toolNameEq (tname : String) (tv : Json) : Bool :=
  match tv with
  | .str s => tname == s
  | _ => false

/-- One connected MCP tool server as the loop observes it: its name, the
result of `list_tools` (`.error` = the listing raised), and the result of
`execute_tool` after its internal retries (`.ok` carries `str(result)`,
`.error` carries `str(e)`). -/
structure ServerModel where
  name : String
  listToolsResult : Except Unit (List String)
  execResult : Json → Json → Except String String

/-- Executes one extracted tool call against the server list exactly as the
inner loop does: skip servers whose `list_tools` raises, execute on the
first server declaring the tool (recording success or the execution error,
then stop), and record `No server found with tool: ...` when none does. -/
def execCall (servers : List ServerModel) (tv : Json) (args : Json) : String :=
  match servers with
  | [] => "No server found with tool: " ++ tv.pyStr
  | srv :: rest =>
    match srv.listToolsResult with
    | .error _ => execCall rest tv args
    | .ok tools =>
        if tools.any (fun tn => toolNameEq tn tv) then
          match srv.execResult tv args with
          | .ok r => "Tool " ++ tv.pyStr ++ " executed successfully: " ++ r
          | .error e => "Error executing tool " ++ tv.pyStr ++ ": " ++ e
        else execCall rest tv args

/-- Sequential execution of all extracted tool calls (later calls run even
when earlier ones failed). -/
def execCalls (servers : List ServerModel) (calls : List (Json × Json)) : List String :=
  calls.map (fun c => execCall servers c.1 c.2)

/-- Python `"\n".join`. -/
def joinNewline : List String → String
  | [] => ""
  | [s] => s
  | s :: rest => s ++ "\n" ++ joinNewline rest

/-- Model of `MCPToolsService._process_llm_response`.  `summarize`
abstracts the secondary `llm_client.get_response` call on the summary
messages.  `.ok` is the returned string; `.error` is an uncaught exception
(only the fallback single-parse path can raise, via `"tool" in tool_call`
on a non-dict — `TypeError` is not among the caught exceptions). -/
def process_llm_response (servers : List ServerModel)
    (summarize : String → Except Unit String) (llm_response : String) :
    Except Unit String :=
  let tool_calls := extractToolCalls llm_response
  let tc2 : Except Unit (Option (List (Json × Json))) :=
    if tool_calls.isEmpty then
      match Json.loads llm_response with
      | none => .ok none
      | some j =>
        match j with
        | .obj _ =>
            (match toolCallOfJson j with
             | some c => .ok (some [c])
             | none => .ok (some []))
        | _ => .error ()
    else .ok (some tool_calls)
  match tc2 with
  | .error _ => .error ()
  | .ok none => .ok llm_response
  | .ok (some calls) =>
    let results := execCalls servers calls
    if results.isEmpty then .ok llm_response
    else
      let combined := joinNewline results
      match summarize combined with
      | .ok final => .ok final
      | .error _ => .ok ("Tools executed. Results: " ++ combined)

/-- Tool server declaring only browser tools, used by the C8 witness. -/
def c8Servers : List ServerModel :=
  [⟨"browser", .ok ["browser_screenshot", "browser_navigate"], fun _ _ => .ok "done"⟩]

/-- Summarizer stub that always fails, used by the C8 witness. -/
def c8Summarize : String → Except Unit String := fun _ => .error ()

/-! ## MARKER: further definitions go above this line -/

/-! # Theorems -/

/-! ## Job state machine timestamps and result/error columns (C1, C2, C3) -/

lemma applyUpdate_started_at (job : ProcessingJob) (u : JobUpdate) :
    (applyUpdate job u).started_at =
      if u.status = .PROCESSING ∧ job.started_at = none then some u.time
      else job.started_at := by
  unfold applyUpdate update_job_status
  cases u.result <;> dsimp only <;> split_ifs <;> rfl

lemma applyUpdate_completed_at (job : ProcessingJob) (u : JobUpdate) :
    (applyUpdate job u).completed_at =
      if u.status.isTerminal then some u.time else job.completed_at := by
  unfold applyUpdate update_job_status
  cases u.result <;> dsimp only <;> split_ifs <;> rfl

lemma applyUpdate_status (job : ProcessingJob) (u : JobUpdate) :
    (applyUpdate job u).status = u.status := by
  unfold applyUpdate update_job_status
  cases u.result <;> dsimp only <;> split_ifs <;> rfl

lemma applyUpdates_cons (job : ProcessingJob) (u : JobUpdate) (us : List JobUpdate) :
    applyUpdates job (u :: us) = applyUpdates (applyUpdate job u) us := rfl

lemma applyUpdates_started_at_frozen :
    ∀ (us : List JobUpdate) (job : ProcessingJob) (t : Nat),
      job.started_at = some t → (applyUpdates job us).started_at = some t := by
  intro us
  induction us with
  | nil => intro job t h; exact h
  | cons u us ih =>
    intro job t h
    rw [applyUpdates_cons]
    refine ih _ t ?_
    rw [applyUpdate_started_at]
    split_ifs with hc
    · rw [hc.2] at h; exact Option.noConfusion h
    · exact h

lemma applyUpdates_started_at_of_none :
    ∀ (us : List JobUpdate) (job : ProcessingJob),
      job.started_at = none →
      (applyUpdates job us).started_at = firstProcessingTime us := by
  intro us
  induction us with
  | nil => intro job h; exact h
  | cons u us ih =>
    intro job h
    rw [applyUpdates_cons, firstProcessingTime]
    by_cases hp : u.status = .PROCESSING
    · rw [if_pos hp]
      refine applyUpdates_started_at_frozen us _ u.time ?_
      rw [applyUpdate_started_at, if_pos ⟨hp, h⟩]
    · rw [if_neg hp]
      refine ih _ ?_
      rw [applyUpdate_started_at]
      split_ifs with hc
      · exact absurd hc.1 hp
      · exact h

/-- C1: for every job created by `create_job` and every sequence of
`update_job_status` calls, `started_at` equals the timestamp of the FIRST
update that requests `PROCESSING` (and stays `NULL` if there is none).
Consequently, on any valid run `PENDING → PROCESSING →
AWAITING_CLARIFICATION → PROCESSING → terminal` — even one that passes
through `AWAITING_CLARIFICATION` twice — `started_at` is assigned by the
first transition into `PROCESSING` and is never reassigned by any later
transition into `PROCESSING`. -/
theorem c1_started_at_first_processing (jid : String) (jd : JobCreate) (t0 : Nat)
    (us : List JobUpdate) :
    (applyUpdates (create_job jid jd t0).1 us).started_at = firstProcessingTime us :=
  applyUpdates_started_at_of_none us _ rfl

lemma completed_iff_aux :
    ∀ (us : List JobUpdate) (job : ProcessingJob),
      job.completed_at = none → ¬ job.status.isTerminal →
      (∀ u ∈ us.dropLast, ¬ u.status.isTerminal) →
      ((applyUpdates job us).completed_at = none ↔
        ¬ (applyUpdates job us).status.isTerminal) := by
  intro us
  induction us with
  | nil =>
    intro job h1 h2 _
    exact ⟨fun _ => h2, fun _ => h1⟩
  | cons u us ih =>
    intro job h1 h2 hall
    cases us with
    | nil =>
      rw [applyUpdates_cons]
      by_cases ht : u.status.isTerminal
      · constructor
        · intro hc
          rw [show applyUpdates (applyUpdate job u) [] = applyUpdate job u from rfl,
            applyUpdate_completed_at, if_pos ht] at hc
          exact Option.noConfusion hc
        · intro hc
          exact absurd (by rw [show applyUpdates (applyUpdate job u) [] = applyUpdate job u from rfl,
            applyUpdate_status]; exact ht) hc
      · constructor
        · intro _
          rw [show applyUpdates (applyUpdate job u) [] = applyUpdate job u from rfl,
            applyUpdate_status]
          exact ht
        · intro _
          rw [show applyUpdates (applyUpdate job u) [] = applyUpdate job u from rfl,
            applyUpdate_completed_at, if_neg ht]
          exact h1
    | cons v vs =>
      have hu : ¬ u.status.isTerminal := hall u (List.mem_cons_self u _)
      rw [applyUpdates_cons]
      refine ih (applyUpdate job u) ?_ ?_ ?_
      · rw [applyUpdate_completed_at, if_neg hu]; exact h1
      · rw [applyUpdate_status]; exact hu
      · intro w hw
        exact hall w (List.mem_cons_of_mem u hw)

/-- C2 (amended): for every job created by `create_job` and every sequence
of `update_job_status` calls in which no update follows a transition into a
terminal state (which is exactly the class of valid transition sequences,
`COMPLETED`/`FAILED` being terminal), `completed_at` is `NULL` iff the
resulting status is not in `{COMPLETED, FAILED}`. -/
theorem c2_completed_at_iff_terminal (jid : String) (jd : JobCreate) (t0 : Nat)
    (us : List JobUpdate) (h : ∀ u ∈ us.dropLast, ¬ u.status.isTerminal) :
    ((applyUpdates (create_job jid jd t0).1 us).completed_at = none ↔
      ¬ (applyUpdates (create_job jid jd t0).1 us).status.isTerminal) :=
  completed_iff_aux us _ rfl
    (by intro hc; rcases hc with h' | h' <;> exact JobStateEnum.noConfusion h') h

/-- C2 witness: a concrete valid run `PENDING → PROCESSING → COMPLETED`. -/
theorem c2_completed_at_iff_terminal_witness :
    ((applyUpdates (create_job "j1" sampleJobCreate 0).1 c2SampleUpdates).completed_at = none ↔
      ¬ (applyUpdates (create_job "j1" sampleJobCreate 0).1 c2SampleUpdates).status.isTerminal) :=
  c2_completed_at_iff_terminal "j1" sampleJobCreate 0 c2SampleUpdates
    (by
      intro u hu
      have h1 : u = ⟨.PROCESSING, none, 1⟩ := List.mem_singleton.mp hu
      subst h1
      decide)

/-- C2 counterexample: `update_job_status` validates no transitions, so the
call sequence `COMPLETED` (at time 1) then `PENDING` (at time 2) — allowed
by the code as written — leaves `completed_at = 1` set while the status is
the non-terminal `PENDING`, refuting the claim for arbitrary
`update_job_status` sequences. -/
theorem c2_counterexample :
    c2CounterJob.completed_at = some 1 ∧ ¬ c2CounterJob.status.isTerminal :=
  ⟨rfl, by decide⟩

lemma applyUpdate_mutex (job : ProcessingJob) (u : JobUpdate)
    (h : job.result_data = none ∨ job.error_message = none) :
    (applyUpdate job u).result_data = none ∨ (applyUpdate job u).error_message = none := by
  unfold applyUpdate update_job_status
  cases u.result <;> dsimp only <;> split_ifs <;>
    first
      | exact h
      | exact Or.inl rfl
      | exact Or.inr rfl

lemma applyUpdates_mutex :
    ∀ (us : List JobUpdate) (job : ProcessingJob),
      (job.result_data = none ∨ job.error_message = none) →
      ((applyUpdates job us).result_data = none ∨
        (applyUpdates job us).error_message = none) := by
  intro us
  induction us with
  | nil => intro job h; exact h
  | cons u us ih => intro job h; exact ih _ (applyUpdate_mutex job u h)

/-- C3 (amended): after any sequence of `update_job_status` calls on a job
created by `create_job`, `result_data` and `error_message` are mutually
exclusive (at most one is non-`NULL`); and every transition into a terminal
state WITH A NON-`None` `result` argument sets exactly one of result/error
(`error_message` for `FAILED`, `result_data` otherwise).  A terminal
transition whose `result` argument is `None` sets neither — see the
counterexample. -/
theorem c3_result_error_exclusive :
    (∀ (jid : String) (jd : JobCreate) (t0 : Nat) (us : List JobUpdate),
      (applyUpdates (create_job jid jd t0).1 us).result_data = none ∨
      (applyUpdates (create_job jid jd t0).1 us).error_message = none) ∧
    (∀ (job : ProcessingJob) (s : JobStateEnum) (r : Json) (t : Nat),
      s.isTerminal →
      ((applyUpdate job ⟨s, some r, t⟩).result_data ≠ none ∧
        (applyUpdate job ⟨s, some r, t⟩).error_message = none) ∨
      ((applyUpdate job ⟨s, some r, t⟩).result_data = none ∧
        (applyUpdate job ⟨s, some r, t⟩).error_message ≠ none)) := by
  constructor
  · intro jid jd t0 us
    exact applyUpdates_mutex us _ (Or.inl rfl)
  · intro job s r t ht
    rcases ht with h | h <;> subst h
    · exact Or.inl ⟨fun hc => Option.noConfusion hc, rfl⟩
    · exact Or.inr ⟨rfl, fun hc => Option.noConfusion hc⟩

/-- C3 witness: a concrete transition into `COMPLETED` carrying a result. -/
theorem c3_result_error_exclusive_witness :
    ((applyUpdate c3SampleJob ⟨.COMPLETED, some (.str "hi"), 1⟩).result_data ≠ none ∧
      (applyUpdate c3SampleJob ⟨.COMPLETED, some (.str "hi"), 1⟩).error_message = none) ∨
    ((applyUpdate c3SampleJob ⟨.COMPLETED, some (.str "hi"), 1⟩).result_data = none ∧
      (applyUpdate c3SampleJob ⟨.COMPLETED, some (.str "hi"), 1⟩).error_message ≠ none) :=
  c3_result_error_exclusive.2 c3SampleJob .COMPLETED (.str "hi") 1 (Or.inl rfl)

/-- C3 counterexample: a transition into the terminal `COMPLETED` with
`result=None` (the default argument) stamps the terminal status but sets
NEITHER `result_data` nor `error_message`, refuting "every transition into
a terminal state sets exactly one of result/error". -/
theorem c3_counterexample :
    (applyUpdate (create_job "j1" sampleJobCreate 0).1 ⟨.COMPLETED, none, 1⟩).status.isTerminal ∧
    (applyUpdate (create_job "j1" sampleJobCreate 0).1 ⟨.COMPLETED, none, 1⟩).result_data = none ∧
    (applyUpdate (create_job "j1" sampleJobCreate 0).1 ⟨.COMPLETED, none, 1⟩).error_message = none :=
  ⟨Or.inl rfl, rfl, rfl⟩

/-! ## Sliding-window history cache and volatile job state (C5, C9) -/
lemma listSlice_zero (xs : List String) (W : Nat) (hw : 0 < W) :
    listSlice xs 0 ((W : Int) - 1) = xs.take W := by
  unfold listSlice
  cases xs with
  | nil => simp
  | cons a l =>
    have hn : (0 : Int) < ((a :: l).length : Int) := by
      exact_mod_cast Nat.succ_pos l.length
    dsimp only
    rw [if_neg (by omega : ¬ (0 : Int) < 0),
        if_neg (by omega : ¬ (W : Int) - 1 < 0)]
    rw [if_neg (by omega :
      ¬ (0 : Int) > min ((W : Int) - 1) (((a :: l).length : Int) - 1))]
    have ht : (min ((W : Int) - 1) (((a :: l).length : Int) - 1) - 0 + 1).toNat
        = min W (a :: l).length := by omega
    rw [show ((0 : Int).toNat = 0) from rfl, List.drop_zero, ht,
      ← List.take_take, List.take_length]

lemma add_message_eq (st : List String) (m : Json) (W : Nat) (hw : 0 < W) :
    add_message_to_history st m W = (Json.dumps m :: st).take W :=
  listSlice_zero _ W hw

lemma take_append_take (A B : List String) (W : Nat) :
    (A ++ B.take W).take W = (A ++ B).take W := by
  rw [List.take_append_eq_append_take, List.take_append_eq_append_take, List.take_take]
  congr 1
  rw [min_eq_left (Nat.sub_le W A.length)]

lemma foldHistory_eq :
    ∀ (ms : List Json) (st : List String) (W : Nat), 0 < W → st.length ≤ W →
      ms.foldl (fun st m => add_message_to_history st m W) st
        = ((ms.reverse.map Json.dumps) ++ st).take W := by
  intro ms
  induction ms with
  | nil =>
    intro st W hw hle
    simp [List.take_of_length_le hle]
  | cons m ms ih =>
    intro st W hw hle
    rw [List.foldl_cons, add_message_eq st m W hw,
      ih _ W hw (by simp)]
    rw [List.reverse_cons, List.map_append, List.append_assoc, List.map_singleton,
      List.singleton_append, take_append_take]

lemma appendHistory_eq (ms : List Json) (W : Nat) (hw : 0 < W) :
    appendHistory ms W = (ms.reverse.map Json.dumps).take W := by
  unfold appendHistory
  rw [foldHistory_eq ms [] W hw (by simp), List.append_nil]

lemma filterMap_loads_dumps :
    ∀ (L : List Json), (∀ m ∈ L, Json.loads (Json.dumps m) = some m) →
      (L.map Json.dumps).filterMap Json.loads = L := by
  intro L
  induction L with
  | nil => intro _; rfl
  | cons a l ih =>
    intro h
    rw [List.map_cons, List.filterMap_cons, h a (List.mem_cons_self a l)]
    rw [ih (fun m hm => h m (List.mem_cons_of_mem a hm))]

theorem c5_history_window (ms : List Json) (W k : Nat) (hw : 0 < W)
    (_hlt : W < ms.length)
    (hrt : ∀ m ∈ ms, Json.loads (Json.dumps m) = some m) :
    (appendHistory (ms.take k) W).length ≤ W ∧
    get_recent_history (appendHistory ms W) W = ms.drop (ms.length - W) := by
  constructor
  · rw [appendHistory_eq _ W hw]
    exact List.length_take_le W _
  · rw [appendHistory_eq ms W hw]
    unfold get_recent_history
    rw [listSlice_zero _ W hw, List.take_take, min_self]
    rw [← List.map_take, filterMap_loads_dumps _ (fun m hm =>
      hrt m (List.mem_reverse.mp ((List.take_sublist W ms.reverse).subset hm)))]
    rw [List.reverse_take, List.reverse_reverse, List.length_reverse]


theorem c5_history_window_witness :
    (appendHistory (c5SampleMessages.take 2) 2).length ≤ 2 ∧
    get_recent_history (appendHistory c5SampleMessages 2) 2
      = c5SampleMessages.drop (c5SampleMessages.length - 2) :=
  c5_history_window c5SampleMessages 2 2 (by decide) (by decide)
    (by
      intro m hm
      rcases List.mem_cons.mp hm with h1 | h1
      · rw [h1]; rfl
      · rcases List.mem_cons.mp h1 with h2 | h2
        · rw [h2]; rfl
        · rw [List.mem_singleton.mp h2]; rfl)

lemma hsetField_fresh (store : List (String × String)) (k v : String)
    (h : ∀ kv ∈ store, kv.1 ≠ k) : hsetField store k v = store ++ [(k, v)] := by
  unfold hsetField
  rw [if_neg]
  intro hc
  rcases List.any_eq_true.mp hc with ⟨kv, hmem, hkv⟩
  exact h kv hmem (by simpa using hkv)

lemma set_job_state_fresh :
    ∀ (d : List (String × Json)) (st : List (String × String)),
      (∀ kv ∈ d, ∀ kv' ∈ st, kv'.1 ≠ kv.1) → (d.map Prod.fst).Nodup →
      set_job_state st d = st ++ d.map (fun kv => (kv.1, Json.dumps kv.2)) := by
  intro d
  induction d with
  | nil => intro st _ _; simp [set_job_state]
  | cons kv d ih =>
    intro st hfresh hnd
    have hstep : set_job_state st (kv :: d)
        = set_job_state (hsetField st kv.1 (Json.dumps kv.2)) d := rfl
    rw [hstep, hsetField_fresh st kv.1 (Json.dumps kv.2)
      (fun kv' h' => hfresh kv (List.mem_cons_self kv d) kv' h')]
    rw [ih (st ++ [(kv.1, Json.dumps kv.2)]) ?_ (by
      rw [List.map_cons] at hnd; exact hnd.of_cons)]
    · rw [List.append_assoc, List.singleton_append, List.map_cons]
    · intro kv2 h2 kv' h'
      rcases List.mem_append.mp h' with h3 | h3
      · exact hfresh kv2 (List.mem_cons_of_mem kv h2) kv' h3
      · rw [List.mem_singleton.mp h3]
        intro hc
        rw [List.map_cons] at hnd
        exact (List.nodup_cons.mp hnd).1 (hc ▸ List.mem_map_of_mem Prod.fst h2)

lemma loadFields_roundtrip :
    ∀ (d : List (String × Json)),
      (∀ kv ∈ d, Json.loads (Json.dumps kv.2) = some kv.2) →
      loadFields (d.map (fun kv => (kv.1, Json.dumps kv.2))) = some d := by
  intro d
  induction d with
  | nil => intro _; rfl
  | cons kv d ih =>
    intro h
    rw [List.map_cons]
    unfold loadFields
    rw [h kv (List.mem_cons_self kv d),
      ih (fun kv2 h2 => h kv2 (List.mem_cons_of_mem kv h2))]
    rfl

theorem c9_volatile_state_roundtrip (d : List (String × Json))
    (hne : d ≠ []) (hnd : (d.map Prod.fst).Nodup)
    (hrt : ∀ kv ∈ d, Json.loads (Json.dumps kv.2) = some kv.2) :
    get_job_state (set_job_state [] d) = .ok (some d) ∧
    get_job_state [] = .ok none := by
  refine ⟨?_, rfl⟩
  rw [set_job_state_fresh d [] (by simp) hnd, List.nil_append]
  cases d with
  | nil => exact absurd rfl hne
  | cons kv d' =>
    rw [List.map_cons]
    unfold get_job_state
    have hlf := loadFields_roundtrip (kv :: d') hrt
    rw [List.map_cons] at hlf
    rw [hlf]


theorem c9_volatile_state_roundtrip_witness :
    get_job_state (set_job_state [] c9SampleState) = .ok (some c9SampleState) ∧
    get_job_state [] = .ok none :=
  c9_volatile_state_roundtrip c9SampleState (List.cons_ne_nil _ _) (by decide)
    (by
      intro kv h
      rcases List.mem_cons.mp h with h1 | h1
      · rw [h1]; rfl
      · rcases List.mem_cons.mp h1 with h2 | h2
        · rw [h2]; rfl
        · rw [List.mem_singleton.mp h2]; rfl)

/-! ## Dispatch triggers, relay delivery, websocket registration (C4, C6, C10) -/
/-- C4 counterexample: a 10th message posted with `chat_mode="tools"`
returns from the tools branch before the summarization block, so the
boundary condition holds yet zero summarization tasks are dispatched,
refuting the claim over every posting. -/
theorem c4_counterexample :
    countTask (post_message_tasks "tools" 9 (.ok "hi")) "summarize_conversation_task" = 0 ∧
    (9 + 1) % SUMMARIZATION_THRESHOLD = 0 :=
  ⟨rfl, rfl⟩

/-- C4 (amended): for every message posted in a chat mode that reaches the
default personalization path (any mode other than `tools`, and for `both`
only when the tools call raised or returned a failure-marked response),
exactly one summarization work item is enqueued when
`(count_before + 1) % 10 == 0` and none otherwise; in particular the 10th
message dispatches exactly one and messages 1-9 dispatch none.  Messages
fully handled by the tools path dispatch none (see the counterexample). -/
theorem c4_summarization_trigger (chat_mode : String) (count_before : Nat)
    (outcome : Except Unit String)
    (hmode : chat_mode ≠ "tools")
    (hboth : chat_mode = "both" →
      (match outcome with
       | .ok r => startsWithCross r = true
       | .error _ => True)) :
    countTask (post_message_tasks chat_mode count_before outcome) "summarize_conversation_task"
      = if (count_before + 1) % SUMMARIZATION_THRESHOLD = 0 then 1 else 0 := by
  unfold post_message_tasks
  rw [if_neg hmode, if_neg ?hsc]
  case hsc =>
    rintro ⟨hb, hc⟩
    have hm := hboth hb
    cases outcome with
    | ok r =>
      rw [show toolsShortCircuit (.ok r) = !(startsWithCross r) from rfl, hm] at hc
      exact Bool.noConfusion hc
    | error e =>
      exact Bool.noConfusion (show false = true from hc)
  unfold countTask defaultPathTasks
  split_ifs <;> rfl

/-- C4 witness: the 10th message in the default personalization mode. -/
theorem c4_summarization_trigger_witness :
    countTask (post_message_tasks "personalization" 9 (.error ())) "summarize_conversation_task"
      = if (9 + 1) % SUMMARIZATION_THRESHOLD = 0 then 1 else 0 :=
  c4_summarization_trigger "personalization" 9 (.error ()) (by decide)
    (fun h => absurd h (by decide))

/-- C6: for every `job-updates` payload that parses to a dict carrying a
non-empty string owner identity `X` under the routing key (`user_id`), the
subscriber loop forwards the parsed payload verbatim to the connection
registered under `X` when one exists in this process's registry, and
otherwise performs a diagnostic no-op (`dropNoConnection`), not an error. -/
theorem c6_relay_routing (m : ConnectionManager) (raw : String) (o : JsonObj) (X : String)
    (hparse : Json.loads raw = some (.obj o))
    (hid : JsonObj.get o "user_id" = some (.str X))
    (hX : X ≠ "") :
    (∀ ws, lookupConn m X = some ws →
        redis_pubsub_listener_step m raw = .forwarded ws (.obj o)) ∧
    (lookupConn m X = none →
        redis_pubsub_listener_step m raw = .dropNoConnection (.obj o)) := by
  have ht : (Json.str X).truthy = true := by
    simp [Json.truthy]
    exact hX
  unfold redis_pubsub_listener_step
  rw [hparse]
  try dsimp only
  rw [hid]
  try dsimp only
  rw [if_pos ht]
  try dsimp only
  constructor
  · intro ws h
    rw [h]
  · intro h
    rw [h]



/-- C6 witness: a concrete payload routed to a registered connection; the
parse hypothesis is discharged by evaluating the embedded `json.loads`. -/
theorem c6_relay_routing_witness :
    redis_pubsub_listener_step c6Registry "\x7b\"job_id\": \"j1\", \"user_id\": \"u42\"\x7d"
      = .forwarded 7 (.obj c6Payload) :=
  (c6_relay_routing c6Registry "\x7b\"job_id\": \"j1\", \"user_id\": \"u42\"\x7d"
    c6Payload "u42" rfl rfl (by decide)).1 7 rfl

lemma get_current_user_active (decode : String → Except Unit (Option String))
    (lookupUser : String → Option UserPublic) (token : Option String) (u : UserPublic)
    (h : get_current_user_from_token decode lookupUser token = some u) :
    u.is_active = true := by
  unfold get_current_user_from_token at h
  repeat' split at h
  all_goals
    first
      | exact Option.noConfusion h
      | (rw [← Option.some_inj.mp h]; assumption)

/-- C10: every registration performed by the websocket endpoint stores the
socket under a `client_id` equal to the string UUID of an authenticated,
ACTIVE user (activity is guaranteed by `get_current_user_from_token`), and
every attempt where the token fails to authenticate, the user is inactive
(both yield `user = none`), or the authenticated UUID differs from the path
`client_id`, closes the socket with the policy-violation code and leaves
the registry untouched. -/
theorem c10_registry_only_authenticated (decode : String → Except Unit (Option String))
    (lookupUser : String → Option UserPublic) (token : Option String)
    (client_id : String) (m : ConnectionManager) (ws : Nat) :
    ((websocket_endpoint client_id
        (get_current_user_from_token decode lookupUser token) m ws).1 = .accepted →
      ∃ u, get_current_user_from_token decode lookupUser token = some u ∧
        u.is_active = true ∧ u.uuid = client_id ∧
        (websocket_endpoint client_id
          (get_current_user_from_token decode lookupUser token) m ws).2
            = m.connect client_id ws) ∧
    ((get_current_user_from_token decode lookupUser token = none ∨
        (∀ u, get_current_user_from_token decode lookupUser token = some u →
          u.uuid ≠ client_id)) →
      (websocket_endpoint client_id
        (get_current_user_from_token decode lookupUser token) m ws)
          = (.rejectedPolicyViolation, m)) := by
  constructor
  · intro hacc
    cases hu : get_current_user_from_token decode lookupUser token with
    | none =>
      rw [hu] at hacc
      exact WsOutcome.noConfusion hacc
    | some u =>
      rw [hu] at hacc
      by_cases heq : u.uuid = client_id
      · refine ⟨u, rfl, get_current_user_active decode lookupUser token u hu, heq, ?_⟩
        unfold websocket_endpoint
        dsimp only
        rw [if_neg (fun hne => hne heq)]
      · unfold websocket_endpoint at hacc
        dsimp only at hacc
        rw [if_pos heq] at hacc
        exact WsOutcome.noConfusion hacc
  · intro hrej
    cases hu : get_current_user_from_token decode lookupUser token with
    | none => rfl
    | some u =>
      rcases hrej with h | h
      · rw [hu] at h
        exact Option.noConfusion h
      · unfold websocket_endpoint
        dsimp only
        rw [if_pos (h u hu)]



/-- C10 witness: a concrete successful connection attempt. -/
theorem c10_registry_only_authenticated_witness :
    ∃ u, get_current_user_from_token c10Decode c10Lookup (some "tok") = some u ∧
      u.is_active = true ∧ u.uuid = "u1" ∧
      (websocket_endpoint "u1"
        (get_current_user_from_token c10Decode c10Lookup (some "tok")) ⟨[]⟩ 3).2
          = ConnectionManager.connect ⟨[]⟩ "u1" 3 :=
  (c10_registry_only_authenticated c10Decode c10Lookup (some "tok") "u1" ⟨[]⟩ 3).1 rfl

/-! ## Distributed lock and tool loop (C7, C8) -/
lemma tryAcquire_holder (s : LockState) (tok : String) (now T : Nat)
    (h : (tryAcquire s tok now T).2 = true) :
    (tryAcquire s tok now T).1.holder = some (tok, now + T) := by
  unfold tryAcquire at h ⊢
  cases hs : s.holder with
  | none => rfl
  | some pe =>
    obtain ⟨t, e⟩ := pe
    rw [hs] at h
    dsimp only at h ⊢
    by_cases hle : e ≤ now
    · rw [if_pos hle]
    · rw [if_neg hle] at h
      exact Bool.noConfusion h

lemma tryAcquire_of_holder (s : LockState) (tok t' : String) (e now T' : Nat)
    (hh : s.holder = some (t', e)) :
    (now < e → (tryAcquire s tok now T').2 = false) ∧
    (e ≤ now → (tryAcquire s tok now T').2 = true) := by
  unfold tryAcquire
  rw [hh]
  dsimp only
  constructor
  · intro hlt
    rw [if_neg (by omega)]
  · intro hle
    rw [if_pos hle]

/-- C7 (spec-modelled lock semantics): an acquisition attempt while another
unexpired hold exists fails — two concurrent `acquire` calls on the same
job's lock, serialized by the store, never both hold the lock — and after a
successful acquire with hold timeout `T`, a second client's acquire fails
strictly before `t0 + T` without a release but succeeds at any time from
`t0 + T` on (auto-expiry). -/
theorem c7_lock_exclusion_and_expiry
    (s0 : LockState) (A B : String) (T t0 t1 t2 : Nat)
    (s : LockState) (tok tok' : String) (e now T' : Nat)
    (hA : (tryAcquire s0 A t0 T).2 = true)
    (h2 : t1 < t0 + T) (h3 : t0 + T ≤ t2)
    (hh : s.holder = some (tok', e)) (hlt : now < e) :
    (tryAcquire s tok now T').2 = false ∧
    (tryAcquire (tryAcquire s0 A t0 T).1 B t1 T).2 = false ∧
    (tryAcquire (tryAcquire s0 A t0 T).1 B t2 T).2 = true := by
  have hheld := tryAcquire_holder s0 A t0 T hA
  refine ⟨(tryAcquire_of_holder s tok tok' e now T' hh).1 hlt,
    (tryAcquire_of_holder _ B A (t0 + T) t1 T hheld).1 (by omega),
    (tryAcquire_of_holder _ B A (t0 + T) t2 T hheld).2 (by omega)⟩

/-- C7 witness: worker A takes the lock at time 0 with the source's default
60-second hold timeout; worker B fails at time 30 and succeeds at 60. -/
theorem c7_lock_exclusion_and_expiry_witness :
    (tryAcquire ⟨some ("workerA", 60)⟩ "workerB" 30 60).2 = false ∧
    (tryAcquire (tryAcquire ⟨none⟩ "workerA" 0 60).1 "workerB" 30 60).2 = false ∧
    (tryAcquire (tryAcquire ⟨none⟩ "workerA" 0 60).1 "workerB" 60 60).2 = true :=
  c7_lock_exclusion_and_expiry ⟨none⟩ "workerA" "workerB" 60 0 30 60
    ⟨some ("workerA", 60)⟩ "workerB" "workerA" 60 30 60
    rfl (by decide) (by decide) rfl (by decide)

lemma execCall_no_server :
    ∀ (servers : List ServerModel) (X : String) (args : Json),
      (∀ srv ∈ servers, ∀ tools, srv.listToolsResult = .ok tools → ∀ tn ∈ tools, tn ≠ X) →
      execCall servers (.str X) args = "No server found with tool: " ++ X := by
  intro servers
  induction servers with
  | nil => intro X args _; rfl
  | cons srv rest ih =>
    intro X args h
    unfold execCall
    cases hl : srv.listToolsResult with
    | error e => exact ih X args (fun s hs => h s (List.mem_cons_of_mem _ hs))
    | ok tools =>
      dsimp only
      have hany : tools.any (fun tn => toolNameEq tn (.str X)) = false := by
        rw [List.any_eq_false]
        intro tn htn
        simp only [toolNameEq, beq_iff_eq]
        exact h srv (List.mem_cons_self srv rest) tools hl tn htn
      rw [if_neg (by rw [hany]; exact Bool.false_ne_true)]
      exact ih X args (fun s hs => h s (List.mem_cons_of_mem _ hs))

/-- C8: when the provider response yields exactly one tool call
`(tool: X, arguments: ...)` via the regex+JSON extraction and no connected
server's tool listing declares `X`, the execution loop produces the
per-call result list `["No server found with tool: X"]`, and
`_process_llm_response` still returns a final textual response — the
summarizer's answer, or `"Tools executed. Results: ..."` with the raw
concatenated results when the summary call fails — and never raises. -/
theorem c8_unknown_tool (servers : List ServerModel)
    (summarize : String → Except Unit String) (llm_response : String)
    (X : String) (args : Json)
    (hext : extractToolCalls llm_response = [(.str X, args)])
    (hns : ∀ srv ∈ servers, ∀ tools, srv.listToolsResult = .ok tools → ∀ tn ∈ tools, tn ≠ X) :
    execCalls servers [((.str X : Json), args)] = ["No server found with tool: " ++ X] ∧
    process_llm_response servers summarize llm_response =
      .ok (match summarize ("No server found with tool: " ++ X) with
           | .ok final => final
           | .error _ => "Tools executed. Results: " ++ ("No server found with tool: " ++ X)) := by
  have hc := execCall_no_server servers X args hns
  have hcalls : execCalls servers [((.str X : Json), args)]
      = ["No server found with tool: " ++ X] := by
    show [execCall servers (.str X) args] = _
    rw [hc]
  refine ⟨hcalls, ?_⟩
  unfold process_llm_response
  rw [hext]
  dsimp only
  rw [show (([((Json.str X : Json), args)]).isEmpty) = false from rfl,
    if_neg Bool.false_ne_true]
  dsimp only
  rw [hcalls]
  rw [show ((["No server found with tool: " ++ X]).isEmpty) = false from rfl,
    if_neg Bool.false_ne_true]
  rw [show joinNewline ["No server found with tool: " ++ X]
    = "No server found with tool: " ++ X from rfl]
  cases summarize ("No server found with tool: " ++ X) <;> rfl



/-- C8 witness: the concrete response `{"tool": "X", "arguments": {}}`
against one server declaring only browser tools, with a failing summarizer;
the extraction hypothesis is discharged by evaluating the embedded regex
scanner and JSON parser. -/
theorem c8_unknown_tool_witness :
    execCalls c8Servers [((.str "X" : Json), .obj .nil)]
      = ["No server found with tool: " ++ "X"] ∧
    process_llm_response c8Servers c8Summarize
        "\x7b\"tool\": \"X\", \"arguments\": \x7b\x7d\x7d" =
      .ok (match c8Summarize ("No server found with tool: " ++ "X") with
           | .ok final => final
           | .error _ => "Tools executed. Results: " ++ ("No server found with tool: " ++ "X")) :=
  c8_unknown_tool c8Servers c8Summarize "\x7b\"tool\": \"X\", \"arguments\": \x7b\x7d\x7d"
    "X" (.obj .nil) rfl
    (by
      intro srv hs tools htools tn htn
      have hsrv := List.mem_singleton.mp hs
      subst hsrv
      have ht : tools = ["browser_screenshot", "browser_navigate"] :=
        (Except.ok.inj htools).symm
      subst ht
      rcases List.mem_cons.mp htn with h1 | h1
      · rw [h1]; decide
      · rw [List.mem_singleton.mp h1]; decide)

end Synapse
